import Mathlib

/-!
Shallow embedding of the FreeNOS generic filesystem server core
(`srv/filesystem/FileSystem.h`): the `FileCache` tree, the path → entry
hash index, the `openFileHandler`/`readFileHandler`/`closeFileHandler`
request handlers, `insertFileCache`, `findFileCache` and `clearFileCache`.

Machine integers: `Size` (the `count` field) is an unsigned 32-bit
integer; increments and decrements are taken modulo `2 ^ 32`.
Pointers: cache entries live in an arena (an association list from
numeric entry ids to records); the `HashTable<String, FileCache>` index
is an association list from full-path strings to entry ids.

Components of the repository that are only declared, not defined, under
`srv/filesystem` (the `List`/`HashTable` containers, `FileSystemPath`,
`File::read`, `VMCopy`, the IPC dispatch loop, and the subclass hook
`lookupFile` of a concrete backing store) are modelled from the spec;
each such definition carries a `Modelled from the spec:` doc comment.
-/

namespace FreeNOS

/-- Maximum length of a filesystem path (`#define PATHLEN 64`). -/
def PATHLEN : Nat := 64

/-- Modulus of the unsigned `Size` type used for `FileCache::count`. -/
def sizeMod : Nat := 2 ^ 32

/-- Entry identity: the address of a `FileCache` object, modelled as an
arena index.  `openFileHandler` returns it in `reply->ident`. -/
abbrev EntryId := Nat

/-- `FileCache`: one cached in-memory file (struct at FileSystem.h:36).
`file` is the owned `File *` handle, modelled by its readable byte
contents (`none` models the `ZERO` file pointer of the dummy root);
`path` the owned `FileSystemPath *` full path; `parent` the non-owning
back pointer; `childs` the ordered child list; `count` the number of
times opened (`Size`, unsigned 32-bit).  The C++ constructor
`FileCache(File *f, FileSystemPath *p)` leaves `count` without an
explicit initializer; the model takes the intended initial value 0,
which every use site in the source assumes (`root->count++` producing
the permanent hold, and eviction's `count == 0` test). -/
structure FileCache where
  file : Option (List Nat)
  path : Option String
  parent : Option EntryId
  childs : List EntryId
  count : Nat
deriving DecidableEq, Repr

/-- The arena of live `FileCache` objects, keyed by entry id. -/
abbrev EntriesT := List (EntryId × FileCache)

/-- Look an entry up in the arena (pointer dereference). -/
def lookupE (es : EntriesT) (i : EntryId) : Option FileCache :=
  match es with
  | [] => none
  | (j, e) :: rest => if j = i then some e else lookupE rest i

/-- Overwrite the record of entry `i` (in-place mutation of the object). -/
def updateE (es : EntriesT) (i : EntryId) (e : FileCache) : EntriesT :=
  match es with
  | [] => []
  | (j, e0) :: rest => if j = i then (j, e) :: rest else (j, e0) :: updateE rest i e

/-- Free entry `i` (`delete cache`). -/
def eraseE (es : EntriesT) (i : EntryId) : EntriesT :=
  match es with
  | [] => []
  | (j, e0) :: rest => if j = i then rest else (j, e0) :: eraseE rest i

/-- The `HashTable<String, FileCache>` path → entry index. -/
abbrev IndexT := List (String × EntryId)

/-- Hash-table lookup `cache[p->full()]`. -/
def idxLookup (idx : IndexT) (p : String) : Option EntryId :=
  match idx with
  | [] => none
  | (q, i) :: rest => if q = p then some i else idxLookup rest p

/-- Hash-table insertion `cache.insert(p->full(), entry)`. -/
def idxInsert (idx : IndexT) (p : String) (i : EntryId) : IndexT :=
  idx ++ [(p, i)]

/-- Split a character list on the `/` separator. -/
def splitOnSlash : List Char → List (List Char)
  | [] => [[]]
  | c :: rest =>
    match splitOnSlash rest with
    | [] => if c = '/' then [[], []] else [[c]]
    | w :: ws => if c = '/' then [] :: w :: ws else (c :: w) :: ws

/-- Join path components back with `/` separators. -/
def joinWithSlash : List (List Char) → List Char
  | [] => []
  | [w] => w
  | w :: ws => w ++ '/' :: joinWithSlash ws

/-- Modelled from the spec: `FileSystemPath` (not under `src/`) is a pure
value type; `parent()` returns the canonical containing-directory string,
or an absent value when the path denotes a top-level object. -/
def pathParent (s : String) : Option String :=
  let comps := (splitOnSlash s.data).filter (fun c => c ≠ [])
  match comps with
  | [] => none
  | [_] => none
  | _ => some (String.mk ('/' :: joinWithSlash comps.dropLast))

/-- Modelled from the spec: `FileSystemPath::parse` over the raw bytes the
handler copied into its `PATHLEN` stack buffer — a pure string
transformation reading the C string up to its NUL terminator (when the
buffer holds no terminator, the model reads the whole buffer). -/
def parsePath (buf : List Char) : String :=
  String.mk (buf.takeWhile (fun c => c ≠ Char.ofNat 0))

/-- The mutable server state: the arena of `FileCache` objects, the
`cache` hash index, the `root` pointer and the allocator's next fresh
address.  `lookupCount` is ghost instrumentation counting invocations of
the backing-store `lookupFile` hook. -/
structure FSState where
  entries : EntriesT
  cacheIdx : IndexT
  rootId : EntryId
  nextId : EntryId
  lookupCount : Nat
deriving DecidableEq, Repr

/-- State after the `FileSystem` constructor: a dummy root entry
(`new FileCache(ZERO, ZERO)`) whose count was incremented once
(`root->count++`), an empty hash index. -/
def initState : FSState :=
  { entries := [(0, { file := none, path := none, parent := none, childs := [], count := 1 })]
  , cacheIdx := []
  , rootId := 0
  , nextId := 1
  , lookupCount := 0 }

/-- `entry->count++` on an unsigned `Size`. -/
def incCount (s : FSState) (i : EntryId) : FSState :=
  match lookupE s.entries i with
  | none => s
  | some e => { s with entries := updateE s.entries i { e with count := (e.count + 1) % sizeMod } }

/-- `file->count--` on an unsigned `Size` (wraps at 0). -/
def decCount (s : FSState) (i : EntryId) : FSState :=
  match lookupE s.entries i with
  | none => s
  | some e => { s with entries := updateE s.entries i { e with count := (e.count + (sizeMod - 1)) % sizeMod } }

/-- `insertFileCache` (FileSystem.h:212): format the path into a
`char[PATHLEN]` buffer with `vsnprintf` (which truncates to at most
`PATHLEN - 1` characters plus the NUL), build a `FileSystemPath`, pick
the parent — the cached entry of the parent path if both exist, the root
otherwise — create the entry, index it under its full path and append it
to the parent's child list.  Returns the new state and the new entry's
id.  `insertParentId` is the parent choice
(`p->parent() && cache[p->parent()] ? cache[p->parent()] : root`). -/
def insertParentId (s : FSState) (full : String) : EntryId :=
  match pathParent full with
  | some pp =>
    match idxLookup s.cacheIdx pp with
    | some pid => pid
    | none => s.rootId
  | none => s.rootId

/-- See `insertParentId` above: the body of `insertFileCache`. -/
def insertFileCache (s : FSState) (file : Option (List Nat)) (pathStr : String) : FSState × EntryId :=
  let full := String.mk (pathStr.data.take (PATHLEN - 1))
  let parentId := insertParentId s full
  let newId := s.nextId
  let entry : FileCache :=
    { file := file, path := some full, parent := some parentId, childs := [], count := 0 }
  let es1 := s.entries ++ [(newId, entry)]
  let es2 :=
    match lookupE es1 parentId with
    | some pe => updateE es1 parentId { pe with childs := pe.childs ++ [newId] }
    | none => es1
  ({ s with
      entries := es2
    , cacheIdx := idxInsert s.cacheIdx full newId
    , nextId := s.nextId + 1 }, newId)

/-- `cacheHit` (FileSystem.h:282): the base-class hook returns the entry
unchanged. -/
def cacheHit (c : Option EntryId) : Option EntryId := c

/-- `findFileCache(FileSystemPath *p)` (FileSystem.h:269): hash-index
lookup of the full path, passed through the `cacheHit` hook. -/
def findFileCache (s : FSState) (p : String) : Option EntryId :=
  cacheHit (idxLookup s.cacheIdx p)

/-- Modelled from the spec: the backing-store extension point
`lookupFile` / `loadEntry(path) -> Entry | absent` (a concrete subclass
override; the base class under `src/` always returns `ZERO`).  `resolve`
gives the backing store's answer per path; on success the subclass
materializes the entry through `insertFileCache` (the insertion
mechanism defined in FileSystem.h).  The ghost `lookupCount` records the
invocation. -/
def lookupFile (resolve : String → Option (List Nat)) (s : FSState) (p : String) :
    FSState × Option EntryId :=
  let s0 := { s with lookupCount := s.lookupCount + 1 }
  match resolve p with
  | none => (s0, none)
  | some data =>
    let r := insertFileCache s0 (some data) p
    (r.1, some r.2)

/-- Result of `openFileHandler`, i.e. `reply->result` plus
`reply->ident` on success: `ESUCCESS` with the entry identity, or the
error codes `EACCESS` / `ENOSUCH`. -/
inductive OpenResult where
  | success (ident : EntryId)
  | eaccess
  | enosuch
deriving DecidableEq, Repr

/-- `openFileHandler` (FileSystem.h:127).  `callerBytes` is the content
of the caller's memory at `msg->buffer`; `none` models a failing
`VMCopy` (return value `<= 0`).  On a successful copy exactly `PATHLEN`
bytes land in the local buffer, the path is parsed from them, the cache
index is consulted first and the backing store only on a miss
(`(entry = findFileCache(&path)) || (entry = lookupFile(&path))`); any
entry found gets `count++` and is returned as the identity. -/
def openFileHandler (resolve : String → Option (List Nat)) (s : FSState)
    (callerBytes : Option (List Char)) : FSState × OpenResult :=
  match callerBytes with
  | none => (s, OpenResult.eaccess)
  | some bytes =>
    let buf := bytes.take PATHLEN
    let p := parsePath buf
    match findFileCache s p with
    | some i => (incCount s i, OpenResult.success i)
    | none =>
      let r := lookupFile resolve s p
      match r.2 with
      | some i => (incCount r.1 i, OpenResult.success i)
      | none => (r.1, OpenResult.enosuch)

/-- `closeFileHandler` (FileSystem.h:194): unconditionally decrement the
referenced entry's `count`; no other effect, no reply fields set. -/
def closeFileHandler (s : FSState) (ident : EntryId) : FSState :=
  decCount s ident

/-- Modelled from the spec: the resource handle's
`read(buffer, length, offset) -> bytesRead | ErrorKind` for a resource
exposing `data` — it fills at most `length` bytes starting at `offset`
and reports the (non-negative) byte count. -/
def fileRead (data : List Nat) (len off : Nat) : Int :=
  Int.ofNat (min len (data.length - off))

/-- `readFileHandler` (FileSystem.h:161), as a function of the opened
entry's abstract read behaviour `fread` (length and offset to
`File::read` result), the requested length `msg->size` and `msg->offset`.
The staging buffer is `u8 buf[1024]`; `bufSize` clips the request to it,
the positive read result is clipped to `bufSize` again, and the reply
carries the transferred size (`reply->size`); a non-positive read result
is propagated verbatim with size 0.  Returns
(`reply->size`, `success flag`, propagated raw result). -/
def readFileHandler (fread : Nat → Nat → Int) (reqSize off : Nat) : Nat × Bool × Int :=
  let bufSize := if 1024 > reqSize then reqSize else 1024
  let result := fread bufSize off
  if result > 0 then
    let clipped := if result > (bufSize : Int) then (bufSize : Int) else result
    (clipped.toNat, true, clipped)
  else
    (0, false, result)

/-- Walk a child list left to right with the given recursive clearing
function (the `ListIterator` loop of `clearFileCache`; the container is
not under `src/`, and the spec's "for every child of startEntry,
recursively evict first" gives the traversal).  Returns the new arena
and the surviving children in order: a child whose recursive call
removed it drops out of its parent's list
(`cache->parent->childs.remove(cache)`). -/
def clearChildList (clear : EntriesT → EntryId → EntriesT × Bool) :
    EntriesT → List EntryId → EntriesT × List EntryId
  | es, [] => (es, [])
  | es, c :: cs =>
    let r := clear es c
    let r2 := clearChildList clear r.1 cs
    (r2.1, if r.2 then r2.2 else c :: r2.2)

/-- `clearFileCache` (FileSystem.h:291) as a fuel-indexed recursion on
the arena.  Each call returns the new arena and whether the visited
entry removed itself.  After all children were processed the entry is
freed (`delete cache->path; delete cache->file; delete cache`) exactly
when its own `count` is 0; the hash index is never touched, exactly as
in the source. -/
def clearFileCache : Nat → EntriesT → EntryId → EntriesT × Bool
  | 0, es, _ => (es, false)
  | Nat.succ fuel, es, i =>
    match lookupE es i with
    | none => (es, false)
    | some e =>
      let r := clearChildList (clearFileCache fuel) es e.childs
      match lookupE r.1 i with
      | none => (r.1, false)
      | some e1 =>
        if e1.count = 0 then (eraseE r.1 i, true)
        else (updateE r.1 i { e1 with childs := r.2 }, false)

/-- The eviction maintenance operation: `clearFileCache()` starting from
the root, with enough fuel to exhaust any tree in the arena. -/
def evictOp (s : FSState) : FSState :=
  { s with entries := (clearFileCache (s.entries.length + 1) s.entries s.rootId).1 }

/-- The request kinds of `FileSystemMessage` used by this server. -/
inductive FSAction where
  | OpenFile
  | ReadFile
  | CloseFile
deriving DecidableEq, Repr

/-- The IPC handler table as the `FileSystem` constructor leaves it
(FileSystem.h:90-91): `addIPCHandler(OpenFile, &openFileHandler)` and
`addIPCHandler(ReadFile, &readFileHandler)` are the only registrations —
no handler is registered for `CloseFile`. -/
def registeredHandlers : FSAction → Bool
  | FSAction.OpenFile => true
  | FSAction.ReadFile => true
  | FSAction.CloseFile => false

/-- Modelled from the spec: the transport delivers a typed request and
the core "dispatches by request kind" to the registered handler; a kind
with no registered handler invokes nothing, so the server state is
untouched.  Shown here for a delivered `CloseFile` request carrying an
opened entry identity. -/
def dispatchCloseFile (s : FSState) (ident : EntryId) : FSState :=
  if registeredHandlers FSAction.CloseFile then closeFileHandler s ident else s

/-- One request processed by the synchronous server loop, or one
explicit eviction pass: the inputs of `openFileHandler` (the caller's
path bytes, `none` for a failing cross-space copy), a read (which never
touches the cache state), a close of an opened entry identity, or
`clearFileCache()` maintenance. -/
inductive FSOp where
  | openF (callerBytes : Option (List Char))
  | readF (ident : EntryId) (reqSize off : Nat)
  | closeF (ident : EntryId)
  | evictF
deriving DecidableEq, Repr

/-- Apply one operation to the server state.  `resolve` is the backing
store; reads go through the entry's file contents and leave the cache
state unchanged, exactly as `readFileHandler` does. -/
def runOp (resolve : String → Option (List Nat)) (s : FSState) : FSOp → FSState
  | FSOp.openF bytes => (openFileHandler resolve s bytes).1
  | FSOp.readF _ _ _ => s
  | FSOp.closeF i => closeFileHandler s i
  | FSOp.evictF => evictOp s

/-- Run a sequence of operations from a starting state. -/
def runOps (resolve : String → Option (List Nat)) (ops : List FSOp) (s : FSState) : FSState :=
  ops.foldl (runOp resolve) s

/-! Concrete scenarios used by the theorems below. -/

/-- NUL-terminated caller memory holding a path string. -/
def bytesOf (s : String) : List Char := s.data ++ [Char.ofNat 0]

/-- A backing store resolving exactly the paths `/a` and `/a/b` to empty
files. -/
def resolveAB : String → Option (List Nat) :=
  fun p => if p = "/a" ∨ p = "/a/b" then some [] else none

/-- A backing store that resolves nothing (the base class `lookupFile`). -/
def resolveNone : String → Option (List Nat) := fun _ => none

/-- State after `open("/a")` from the freshly constructed server. -/
def stateA : FSState := (openFileHandler resolveAB initState (some (bytesOf "/a"))).1

/-- State after `open("/a")` then `open("/a/b")`. -/
def stateAB : FSState := (openFileHandler resolveAB stateA (some (bytesOf "/a/b"))).1

/-- `stateA` after the `/a` handle was closed: `/a` has count 0. -/
def stateA0 : FSState := closeFileHandler stateA 1

/-- `stateAB` after the `/a` handle was closed: `/a` has count 0 while
its child `/a/b` still has count 1. -/
def stateABClosedA : FSState := closeFileHandler stateAB 1

/-- `stateA0` after a second close of the `/a` handle: the unsigned
count, already 0, wraps around. -/
def stateWrap : FSState := closeFileHandler stateA0 1

/-- `stateWrap` after `/a` is opened once more: the wrapped count
overflows back to 0. -/
def stateWrapOpen : FSState := (openFileHandler resolveAB stateWrap (some (bytesOf "/a"))).1

/-- Caller memory holding a 65-character path (66 bytes with the NUL
terminator), longer than `PATHLEN`. -/
def longBytes : List Char := List.replicate 65 'a' ++ [Char.ofNat 0]

/-- A backing store resolving exactly the 64-character truncation of the
long path above. -/
def resolve64 : String → Option (List Nat) :=
  fun p => if p = String.mk (List.replicate 64 'a') then some [] else none

/-- The root-protection invariant of the server state: the root pointer
designates entry 0, which holds the permanent implicit count of 1, no
parent, no path and no file handle; the allocator never reuses id 0; and
the path index never names the root. -/
def rootInv (s : FSState) : Prop :=
  s.rootId = 0 ∧ 0 < s.nextId ∧
  (∀ p i, idxLookup s.cacheIdx p = some i → i ≠ 0) ∧
  ∃ e, lookupE s.entries 0 = some e ∧
    e.count = 1 ∧ e.parent = none ∧ e.path = none ∧ e.file = none

/-! Helper lemmas about the arena and index primitives. -/

theorem lookupE_updateE_self {es : EntriesT} {i : EntryId}
    (h : (lookupE es i).isSome) (e' : FileCache) :
    lookupE (updateE es i e') i = some e' := by
  induction es with
  | nil => simp [lookupE] at h
  | cons hd tl ih =>
    obtain ⟨j, e0⟩ := hd
    by_cases hj : j = i
    · simp [lookupE, updateE, hj]
    · simp only [lookupE, updateE, if_neg hj] at h ⊢
      exact ih h

theorem lookupE_updateE_ne {es : EntriesT} {i j : EntryId} (hne : i ≠ j) (e' : FileCache) :
    lookupE (updateE es i e') j = lookupE es j := by
  induction es with
  | nil => simp [lookupE, updateE]
  | cons hd tl ih =>
    obtain ⟨k, e0⟩ := hd
    by_cases hk : k = i
    · subst hk
      simp [updateE, lookupE, hne]
    · by_cases hkj : k = j
      · simp [updateE, lookupE, hk, hkj, Ne.symm hne]
      · simp only [updateE, if_neg hk, lookupE, if_neg hkj]
        exact ih

theorem lookupE_eraseE_ne {es : EntriesT} {i j : EntryId} (hne : i ≠ j) :
    lookupE (eraseE es i) j = lookupE es j := by
  induction es with
  | nil => simp [lookupE, eraseE]
  | cons hd tl ih =>
    obtain ⟨k, e0⟩ := hd
    by_cases hk : k = i
    · subst hk
      simp [eraseE, lookupE, hne]
    · by_cases hkj : k = j
      · simp [eraseE, lookupE, hk, hkj, Ne.symm hne]
      · simp only [eraseE, if_neg hk, lookupE, if_neg hkj]
        exact ih

theorem lookupE_append_of_some {es : EntriesT} {j : EntryId} {e : FileCache}
    (h : lookupE es j = some e) (l : EntriesT) :
    lookupE (es ++ l) j = some e := by
  induction es with
  | nil => simp [lookupE] at h
  | cons hd tl ih =>
    obtain ⟨k, e0⟩ := hd
    by_cases hk : k = j
    · simp only [lookupE, if_pos hk] at h
      simp [lookupE, if_pos hk, h]
    · simp only [lookupE, if_neg hk] at h
      simp only [List.cons_append, lookupE, if_neg hk]
      exact ih h

theorem idxLookup_append_singleton {idx : IndexT} {p q : String} {i r : EntryId}
    (h : idxLookup (idx ++ [(p, i)]) q = some r) :
    r = i ∨ idxLookup idx q = some r := by
  induction idx with
  | nil =>
    simp only [List.nil_append, idxLookup] at h
    by_cases hp : p = q
    · simp only [if_pos hp] at h
      exact Or.inl (Option.some.inj h).symm
    · simp [if_neg hp, idxLookup] at h
  | cons hd tl ih =>
    obtain ⟨p0, i0⟩ := hd
    by_cases hp : p0 = q
    · simp only [List.cons_append, idxLookup, if_pos hp] at h ⊢
      exact Or.inr (by simpa [idxLookup, if_pos hp] using h)
    · simp only [List.cons_append, idxLookup, if_neg hp] at h ⊢
      rcases ih h with h1 | h2
      · exact Or.inl h1
      · exact Or.inr (by simpa [idxLookup, if_neg hp] using h2)

/-- C1: the claim says eviction removes each evicted entry from the
path-to-entry index as well as from the tree, so that index and tree
agree afterwards.  The code violates this: evicting the unopened `/a`
entry (count 0) detaches it from the root's children and frees it, yet
the `"/a"` mapping remains in the hash index, now naming an entry that
is no longer attached to (or even part of) the tree. -/
theorem claim_C1_evict_leaves_stale_index :
    lookupE (evictOp stateA0).entries 1 = none ∧
    (∃ e, lookupE (evictOp stateA0).entries 0 = some e ∧ e.childs = []) ∧
    idxLookup (evictOp stateA0).cacheIdx "/a" = some 1 ∧
    (evictOp stateA0).cacheIdx = stateA0.cacheIdx := by
  refine ⟨by decide,
    ⟨{ file := none, path := none, parent := none, childs := [], count := 1 },
      by decide, by decide⟩, by decide, by decide⟩

/-- C2: the claim says every CloseFile request delivered to the server
decrements the referenced entry's count by one.  The handler
`closeFileHandler` would indeed decrement by exactly one, but the
constructor registers IPC handlers only for `OpenFile` and `ReadFile`,
so a delivered CloseFile request invokes nothing and the state is
untouched. -/
theorem claim_C2_closefile_not_dispatched :
    registeredHandlers FSAction.CloseFile = false ∧
    (∀ (s : FSState) (i : EntryId), dispatchCloseFile s i = s) ∧
    (∀ (s : FSState) (i : EntryId) (e : FileCache), lookupE s.entries i = some e →
      1 ≤ e.count → e.count < sizeMod →
      lookupE (closeFileHandler s i).entries i = some { e with count := e.count - 1 }) := by
  refine ⟨rfl, ?_, ?_⟩
  · intro s i
    simp [dispatchCloseFile, registeredHandlers]
  · intro s i e h h1 h2
    have hM : sizeMod = 4294967296 := by norm_num [sizeMod]
    have hmod : (e.count + (sizeMod - 1)) % sizeMod = e.count - 1 := by
      rw [hM] at h2 ⊢
      omega
    unfold closeFileHandler decCount
    rw [h]
    dsimp only
    rw [hmod]
    exact lookupE_updateE_self (by rw [h]; rfl) _

/-- Witness for C2: the registered-handler table and the would-be
decrement, instantiated on the state holding `/a` open once. -/
theorem claim_C2_witness :
    dispatchCloseFile stateA 1 = stateA ∧
    lookupE (closeFileHandler stateA 1).entries 1 =
      some { file := some [], path := some "/a", parent := some 0, childs := [], count := 0 } := by
  refine ⟨claim_C2_closefile_not_dispatched.2.1 stateA 1, ?_⟩
  have h := claim_C2_closefile_not_dispatched.2.2 stateA 1
    { file := some [], path := some "/a", parent := some 0, childs := [], count := 1 }
    (by decide) (by decide) (by decide)
  exact h

/-- C6: every read transfers at most `min(requestedLength, 1024)` bytes
(the staging buffer is `u8 buf[1024]`), and on a 2000-byte resource a
read of length 2000 at offset 0 yields exactly 1024 bytes while the
follow-up read of length 976 at offset 1024 yields the remaining 976. -/
theorem claim_C6_read_bounded (fread : Nat → Nat → Int) (reqSize off : Nat)
    (d : List Nat) (hd : d.length = 2000) :
    (readFileHandler fread reqSize off).1 ≤ min reqSize 1024 ∧
    readFileHandler (fileRead d) 2000 0 = (1024, true, 1024) ∧
    readFileHandler (fileRead d) 976 1024 = (976, true, 976) := by
  refine ⟨?_, ?_, ?_⟩
  · unfold readFileHandler
    by_cases hb : 1024 > reqSize
    · simp only [if_pos hb]
      split
      · split <;> omega
      · omega
    · simp only [if_neg hb]
      split
      · split <;> omega
      · omega
  · simp only [readFileHandler, fileRead, hd]
    norm_num
    rfl
  · simp only [readFileHandler, fileRead, hd]
    norm_num
    rfl

/-- Witness for C6 on a concrete 2000-byte resource. -/
theorem claim_C6_witness :
    (readFileHandler (fileRead (List.replicate 2000 0)) 2000 0).1 ≤ min 2000 1024 ∧
    readFileHandler (fileRead (List.replicate 2000 0)) 2000 0 = (1024, true, 1024) ∧
    readFileHandler (fileRead (List.replicate 2000 0)) 976 1024 = (976, true, 976) :=
  claim_C6_read_bounded (fileRead (List.replicate 2000 0)) 2000 0
    (List.replicate 2000 0) (by rw [List.length_replicate])

/-- C7: opening a path that is neither cached nor resolvable replies
`ENOSUCH` and leaves the arena, the index, the allocator and the root
pointer unchanged — no partial insertion, no count change. -/
theorem claim_C7_open_notfound_no_change (resolve : String → Option (List Nat))
    (s : FSState) (bytes : List Char)
    (h1 : idxLookup s.cacheIdx (parsePath (bytes.take PATHLEN)) = none)
    (h2 : resolve (parsePath (bytes.take PATHLEN)) = none) :
    (openFileHandler resolve s (some bytes)).2 = OpenResult.enosuch ∧
    (openFileHandler resolve s (some bytes)).1.entries = s.entries ∧
    (openFileHandler resolve s (some bytes)).1.cacheIdx = s.cacheIdx ∧
    (openFileHandler resolve s (some bytes)).1.nextId = s.nextId ∧
    (openFileHandler resolve s (some bytes)).1.rootId = s.rootId := by
  unfold openFileHandler findFileCache cacheHit lookupFile
  simp [h1, h2]

/-- Witness for C7: `open("/x")` against the resolving-nothing backing
store from the freshly constructed server. -/
theorem claim_C7_witness :
    (openFileHandler resolveNone initState (some (bytesOf "/x"))).2 = OpenResult.enosuch ∧
    (openFileHandler resolveNone initState (some (bytesOf "/x"))).1.entries = initState.entries ∧
    (openFileHandler resolveNone initState (some (bytesOf "/x"))).1.cacheIdx = initState.cacheIdx ∧
    (openFileHandler resolveNone initState (some (bytesOf "/x"))).1.nextId = initState.nextId ∧
    (openFileHandler resolveNone initState (some (bytesOf "/x"))).1.rootId = initState.rootId :=
  claim_C7_open_notfound_no_change resolveNone initState (bytesOf "/x") (by decide) rfl

/-- C8: when the cross-space copy of the path bytes fails
(`VMCopy(...) <= 0`), the handler replies `EACCESS` immediately and the
whole state — cache, index, allocator and the ghost backing-store
invocation counter — is exactly what it was. -/
theorem claim_C8_copy_failure_eaccess (resolve : String → Option (List Nat)) (s : FSState) :
    openFileHandler resolve s none = (s, OpenResult.eaccess) := rfl

/-- Counterexample for C9: a 65-character path (66 caller bytes with the
NUL) is longer than `PATHLEN = 64`, yet `open` does not reject it: the
handler copies exactly 64 bytes, parses them as a 64-character path and
succeeds on that truncation — the reply is `ESUCCESS`, not an error. -/
theorem claim_C9_counterexample :
    (List.replicate 65 'a').length > PATHLEN ∧
    parsePath (longBytes.take PATHLEN) = String.mk (List.replicate 64 'a') ∧
    (openFileHandler resolve64 initState (some longBytes)).2 = OpenResult.success 1 := by
  refine ⟨by decide, by decide, by decide⟩

/-- C9 as amended: a path longer than `PATHLEN` is never rejected — the
handler behaves exactly as if the caller had sent only the first
`PATHLEN` bytes (silent truncation), and the only non-success reply a
successfully copied request can get is `ENOSUCH`; no length check
exists. -/
theorem claim_C9_silent_truncation (resolve : String → Option (List Nat))
    (s : FSState) (bytes : List Char) :
    openFileHandler resolve s (some bytes) =
      openFileHandler resolve s (some (bytes.take PATHLEN)) ∧
    (openFileHandler resolve s (some bytes)).2 ≠ OpenResult.eaccess := by
  constructor
  · unfold openFileHandler
    dsimp only
    rw [List.take_take, min_self]
  · unfold openFileHandler
    dsimp only
    cases hf : findFileCache s (parsePath (bytes.take PATHLEN)) with
    | some i => simp [hf]
    | none =>
      cases hr : (lookupFile resolve s (parsePath (bytes.take PATHLEN))).2 with
      | some i => simp [hf, hr]
      | none => simp [hf, hr]

/-- Counterexample for C10: after the unsigned wraparound the entry is
not permanently ineligible for eviction — one further `open` of the same
path overflows the count from `2^32 - 1` back to 0, and the next evict
removes the entry. -/
theorem claim_C10_counterexample :
    (∃ e, lookupE stateA0.entries 1 = some e ∧ e.count = 0) ∧
    (∃ e, lookupE stateWrap.entries 1 = some e ∧ e.count = sizeMod - 1) ∧
    (∃ e, lookupE stateWrapOpen.entries 1 = some e ∧ e.count = 0) ∧
    lookupE (evictOp stateWrapOpen).entries 1 = none := by
  refine ⟨⟨{ file := some [], path := some "/a", parent := some 0, childs := [], count := 0 },
      by decide, by decide⟩,
    ⟨{ file := some [], path := some "/a", parent := some 0, childs := [], count := sizeMod - 1 },
      by decide, by decide⟩,
    ⟨{ file := some [], path := some "/a", parent := some 0, childs := [], count := 0 },
      by decide, by decide⟩, by decide⟩

/-- An entry whose count is nonzero survives any `clearFileCache` pass
untouched except possibly for its child list: eviction never frees it
and never modifies its count, parent, path or file. -/
theorem clearFileCache_preserves_live :
    ∀ (fuel : Nat) (es : EntriesT) (i j : EntryId) (e : FileCache),
      lookupE es j = some e → e.count ≠ 0 →
      ∃ cs, lookupE (clearFileCache fuel es i).1 j = some { e with childs := cs } := by
  intro fuel
  induction fuel with
  | zero =>
    intro es i j e h hc
    exact ⟨e.childs, h⟩
  | succ f ih =>
    have hwalk : ∀ (cl : List EntryId) (es : EntriesT) (j : EntryId) (e : FileCache),
        lookupE es j = some e → e.count ≠ 0 →
        ∃ cs, lookupE (clearChildList (clearFileCache f) es cl).1 j
          = some { e with childs := cs } := by
      intro cl
      induction cl with
      | nil =>
        intro es j e h hc
        exact ⟨e.childs, h⟩
      | cons c cs ihc =>
        intro es j e h hc
        obtain ⟨cs1, h1⟩ := ih es c j e h hc
        obtain ⟨cs2, h2⟩ := ihc (clearFileCache f es c).1 j { e with childs := cs1 } h1 hc
        exact ⟨cs2, h2⟩
    intro es i j e h hc
    cases hl : lookupE es i with
    | none =>
      simp only [clearFileCache, hl]
      exact ⟨e.childs, h⟩
    | some ei =>
      obtain ⟨cs1, h1⟩ := hwalk ei.childs es j e h hc
      simp only [clearFileCache, hl]
      cases hl2 : lookupE (clearChildList (clearFileCache f) es ei.childs).1 i with
      | none =>
        exact ⟨cs1, h1⟩
      | some e1i =>
        by_cases hz : e1i.count = 0
        · have hij : i ≠ j := by
            intro hh
            subst hh
            rw [h1] at hl2
            cases hl2
            exact hc hz
          simp only [if_pos hz]
          rw [lookupE_eraseE_ne hij]
          exact ⟨cs1, h1⟩
        · simp only [if_neg hz]
          by_cases hij : i = j
          · subst hij
            rw [h1] at hl2
            cases hl2
            exact ⟨_, lookupE_updateE_self (by rw [h1]; rfl) _⟩
          · rw [lookupE_updateE_ne hij]
            exact ⟨cs1, h1⟩

theorem rootInv_initState : rootInv initState := by
  refine ⟨rfl, by decide, ?_, ⟨_, rfl, rfl, rfl, rfl, rfl⟩⟩
  intro p i h
  simp [idxLookup] at h

theorem findFileCache_ne_root {s : FSState} (hs : rootInv s) {p : String} {i : EntryId}
    (h : findFileCache s p = some i) : i ≠ 0 :=
  hs.2.2.1 p i h

theorem rootInv_incCount {s : FSState} (hs : rootInv s) {i : EntryId} (hi : i ≠ 0) :
    rootInv (incCount s i) := by
  obtain ⟨hr, hn, hidx, e0, h0, hc0, hp0, hpa0, hf0⟩ := hs
  unfold incCount
  cases hl : lookupE s.entries i with
  | none => exact ⟨hr, hn, hidx, e0, h0, hc0, hp0, hpa0, hf0⟩
  | some e =>
    refine ⟨hr, hn, hidx, e0, ?_, hc0, hp0, hpa0, hf0⟩
    show lookupE (updateE s.entries i _) 0 = some e0
    rw [lookupE_updateE_ne hi]
    exact h0

theorem rootInv_decCount {s : FSState} (hs : rootInv s) {i : EntryId} (hi : i ≠ 0) :
    rootInv (decCount s i) := by
  obtain ⟨hr, hn, hidx, e0, h0, hc0, hp0, hpa0, hf0⟩ := hs
  unfold decCount
  cases hl : lookupE s.entries i with
  | none => exact ⟨hr, hn, hidx, e0, h0, hc0, hp0, hpa0, hf0⟩
  | some e =>
    refine ⟨hr, hn, hidx, e0, ?_, hc0, hp0, hpa0, hf0⟩
    show lookupE (updateE s.entries i _) 0 = some e0
    rw [lookupE_updateE_ne hi]
    exact h0

theorem insertFileCache_rootId (s : FSState) (file : Option (List Nat)) (pstr : String) :
    (insertFileCache s file pstr).1.rootId = s.rootId := rfl

theorem insertFileCache_nextId (s : FSState) (file : Option (List Nat)) (pstr : String) :
    (insertFileCache s file pstr).1.nextId = s.nextId + 1 := rfl

theorem insertFileCache_snd (s : FSState) (file : Option (List Nat)) (pstr : String) :
    (insertFileCache s file pstr).2 = s.nextId := rfl

theorem insertFileCache_cacheIdx (s : FSState) (file : Option (List Nat)) (pstr : String) :
    (insertFileCache s file pstr).1.cacheIdx =
      s.cacheIdx ++ [(String.mk (pstr.data.take (PATHLEN - 1)), s.nextId)] := rfl

theorem lookupE_insertFileCache_root {s : FSState} {e0 : FileCache}
    (h0 : lookupE s.entries 0 = some e0) (file : Option (List Nat)) (pstr : String) :
    ∃ cs, lookupE (insertFileCache s file pstr).1.entries 0 = some { e0 with childs := cs } := by
  have h1 : ∀ l : EntriesT, lookupE (s.entries ++ l) 0 = some e0 :=
    fun l => lookupE_append_of_some h0 l
  unfold insertFileCache
  dsimp only
  split
  · by_cases hpid : insertParentId s (String.mk (List.take (PATHLEN - 1) pstr.data)) = 0
    · rename_i pe hpe
      rw [hpid] at hpe
      rw [h1] at hpe
      cases hpe
      rw [hpid]
      exact ⟨_, lookupE_updateE_self (by rw [h1]; rfl) _⟩
    · refine ⟨e0.childs, ?_⟩
      rw [lookupE_updateE_ne hpid]
      exact h1 _
  · exact ⟨e0.childs, h1 _⟩

theorem rootInv_insertFileCache {s : FSState} (hs : rootInv s)
    (file : Option (List Nat)) (pstr : String) :
    rootInv (insertFileCache s file pstr).1 := by
  obtain ⟨hr, hn, hidx, e0, h0, hc0, hp0, hpa0, hf0⟩ := hs
  obtain ⟨cs, hroot⟩ := lookupE_insertFileCache_root h0 file pstr
  refine ⟨hr, ?_, ?_, ⟨{ e0 with childs := cs }, hroot, hc0, hp0, hpa0, hf0⟩⟩
  · rw [insertFileCache_nextId]
    exact Nat.succ_pos _
  · intro p i h
    rw [insertFileCache_cacheIdx] at h
    rcases idxLookup_append_singleton h with h1 | h2
    · subst h1
      exact Nat.pos_iff_ne_zero.mp hn
    · exact hidx p i h2

theorem lookupFile_some_id {resolve : String → Option (List Nat)} {s : FSState} {p : String}
    {k : EntryId} (h : (lookupFile resolve s p).2 = some k) : k = s.nextId := by
  unfold lookupFile at h
  dsimp only at h
  cases hr : resolve p with
  | none =>
    rw [hr] at h
    exact Option.noConfusion h
  | some d =>
    rw [hr] at h
    dsimp only at h
    injection h with h'
    rw [← h']
    rfl

theorem rootInv_lookupFile {resolve : String → Option (List Nat)} {s : FSState} {p : String}
    (hs : rootInv s) : rootInv (lookupFile resolve s p).1 := by
  unfold lookupFile
  dsimp only
  cases hr : resolve p with
  | none => exact hs
  | some d => exact rootInv_insertFileCache hs (some d) p

theorem rootInv_open (resolve : String → Option (List Nat)) {s : FSState} (hs : rootInv s)
    (bytes : Option (List Char)) : rootInv (openFileHandler resolve s bytes).1 := by
  cases bytes with
  | none => exact hs
  | some bs =>
    unfold openFileHandler
    dsimp only
    cases hf : findFileCache s (parsePath (bs.take PATHLEN)) with
    | some k =>
      exact rootInv_incCount hs (findFileCache_ne_root hs hf)
    | none =>
      cases hr : (lookupFile resolve s (parsePath (bs.take PATHLEN))).2 with
      | some k =>
        have hk : k = s.nextId := lookupFile_some_id hr
        refine rootInv_incCount (rootInv_lookupFile hs) ?_
        rw [hk]
        exact Nat.pos_iff_ne_zero.mp hs.2.1
      | none =>
        exact rootInv_lookupFile hs

theorem open_success_ne_root {resolve : String → Option (List Nat)} {s : FSState}
    {bytes : Option (List Char)} {i : EntryId} (hs : rootInv s)
    (h : (openFileHandler resolve s bytes).2 = OpenResult.success i) : i ≠ 0 := by
  cases bytes with
  | none => exact OpenResult.noConfusion h
  | some bs =>
    unfold openFileHandler at h
    dsimp only at h
    cases hf : findFileCache s (parsePath (bs.take PATHLEN)) with
    | some k =>
      rw [hf] at h
      dsimp only at h
      injection h with h'
      exact h' ▸ findFileCache_ne_root hs hf
    | none =>
      rw [hf] at h
      dsimp only at h
      cases hr : (lookupFile resolve s (parsePath (bs.take PATHLEN))).2 with
      | some k =>
        rw [hr] at h
        dsimp only at h
        injection h with h'
        have hk : k = s.nextId := lookupFile_some_id hr
        intro h0
        rw [← h', hk] at h0
        exact Nat.pos_iff_ne_zero.mp hs.2.1 h0
      | none =>
        rw [hr] at h
        exact OpenResult.noConfusion h

theorem rootInv_evictOp {s : FSState} (hs : rootInv s) : rootInv (evictOp s) := by
  obtain ⟨hr, hn, hidx, e0, h0, hc0, hp0, hpa0, hf0⟩ := hs
  have hcne : e0.count ≠ 0 := by
    rw [hc0]
    exact one_ne_zero
  obtain ⟨cs, hroot⟩ :=
    clearFileCache_preserves_live (s.entries.length + 1) s.entries s.rootId 0 e0 h0 hcne
  exact ⟨hr, hn, hidx, { e0 with childs := cs }, hroot, hc0, hp0, hpa0, hf0⟩

theorem rootInv_runOp (resolve : String → Option (List Nat)) {s : FSState} (hs : rootInv s)
    (op : FSOp) (hop : ∀ i, op = FSOp.closeF i → i ≠ 0) : rootInv (runOp resolve s op) := by
  cases op with
  | openF b => exact rootInv_open resolve hs b
  | readF _ _ _ => exact hs
  | closeF i => exact rootInv_decCount hs (hop i rfl)
  | evictF => exact rootInv_evictOp hs

theorem rootInv_runOps (resolve : String → Option (List Nat)) (ops : List FSOp) {s : FSState}
    (hs : rootInv s) (hcl : ∀ i, FSOp.closeF i ∈ ops → i ≠ 0) :
    rootInv (runOps resolve ops s) := by
  induction ops generalizing s with
  | nil => exact hs
  | cons op rest ih =>
    have h1 : rootInv (runOp resolve s op) :=
      rootInv_runOp resolve hs op (fun i hop => hcl i (hop ▸ List.mem_cons_self op rest))
    exact ih h1 (fun i hi => hcl i (List.mem_cons_of_mem op hi))

/-- C3: the dummy root (entry 0) carries its permanent implicit count of
1 right after construction, and after any sequence of open, read, close
and evict operations — where closes target handles returned by `open`,
which (second conjunct) are never the root id — the root entry still
exists, is still designated by the root pointer, and still has count 1,
no parent, no path and no file: eviction can never remove it. -/
theorem claim_C3_root_never_evicted (resolve : String → Option (List Nat)) (ops : List FSOp)
    (hclose : ∀ i, FSOp.closeF i ∈ ops → i ≠ 0) :
    (∃ e, lookupE initState.entries initState.rootId = some e ∧ e.count = 1) ∧
    (∀ (s : FSState) (bytes : Option (List Char)) (i : EntryId), rootInv s →
      (openFileHandler resolve s bytes).2 = OpenResult.success i → i ≠ 0) ∧
    ((runOps resolve ops initState).rootId = 0 ∧
      ∃ e, lookupE (runOps resolve ops initState).entries 0 = some e ∧
        e.count = 1 ∧ e.parent = none ∧ e.path = none ∧ e.file = none) := by
  have hinv := rootInv_runOps resolve ops rootInv_initState hclose
  refine ⟨⟨_, rfl, rfl⟩, ?_, hinv.1, hinv.2.2.2⟩
  intro s bytes i hs h
  exact open_success_ne_root hs h

theorem takeWhile_append_nul (l : List Char) (h : Char.ofNat 0 ∉ l) :
    (l ++ [Char.ofNat 0]).takeWhile (fun c => c ≠ Char.ofNat 0) = l := by
  induction l with
  | nil => simp [List.takeWhile]
  | cons c cs ih =>
    have hc : c ≠ Char.ofNat 0 := fun hh => h (hh ▸ List.mem_cons_self c cs)
    have hcs : Char.ofNat 0 ∉ cs := fun hh => h (List.mem_cons_of_mem c hh)
    simp only [List.cons_append, List.takeWhile_cons, decide_eq_true_eq]
    rw [if_pos hc, ih hcs]

/-- A NUL-free path of fewer than `PATHLEN` characters passes through
the copy-then-parse pipeline unchanged. -/
theorem parsePath_short {P : String} (hlen : P.length < PATHLEN)
    (hnul : Char.ofNat 0 ∉ P.data) :
    parsePath ((P.data ++ [Char.ofNat 0]).take PATHLEN) = P := by
  have hl : (P.data ++ [Char.ofNat 0]).length ≤ PATHLEN := by
    simp only [List.length_append, List.length_singleton]
    have : P.data.length < PATHLEN := hlen
    omega
  rw [List.take_of_length_le hl]
  unfold parsePath
  rw [takeWhile_append_nul P.data hnul]

/-- The `vsnprintf` copy in `insertFileCache` leaves a path of fewer
than `PATHLEN` characters intact. -/
theorem full_path_short {P : String} (hlen : P.length < PATHLEN) :
    String.mk (P.data.take (PATHLEN - 1)) = P := by
  have hle : P.data.length ≤ PATHLEN - 1 := by
    have : P.data.length < PATHLEN := hlen
    unfold PATHLEN at this ⊢
    omega
  rw [List.take_of_length_le hle]

theorem insertParentId_empty_idx (s : FSState) (hidx : s.cacheIdx = [])
    (hroot : s.rootId = 0) (full : String) : insertParentId s full = 0 := by
  unfold insertParentId
  cases hp : pathParent full with
  | none => exact hroot
  | some pp =>
    rw [hidx]
    exact hroot

/-- C10 as amended: closing an entry whose count is 0 wraps the unsigned
count to `2^32 - 1` (the decrement is unconditional), after which the
entry fails the `count == 0` eviction test; eviction itself never
changes counts, so the entry stays ineligible as long as no further
open or close touches it — but the ineligibility is not permanent: a
subsequent open wraps the count back to 0 and the entry becomes
evictable again (see the counterexample). -/
theorem claim_C10_close_wraps_to_max (s : FSState) (i : EntryId) (e : FileCache)
    (h : lookupE s.entries i = some e) (hc : e.count = 0) :
    lookupE (closeFileHandler s i).entries i = some { e with count := sizeMod - 1 } ∧
    (∀ (fuel : Nat) (j : EntryId), ∃ cs,
      lookupE (clearFileCache fuel (closeFileHandler s i).entries j).1 i =
        some { file := e.file, path := e.path, parent := e.parent, childs := cs,
               count := sizeMod - 1 }) := by
  have hmod : (e.count + (sizeMod - 1)) % sizeMod = sizeMod - 1 := by
    rw [hc]
    norm_num [sizeMod]
  have hclose : lookupE (closeFileHandler s i).entries i =
      some { e with count := sizeMod - 1 } := by
    unfold closeFileHandler decCount
    rw [h]
    dsimp only
    rw [hmod]
    exact lookupE_updateE_self (by rw [h]; rfl) _
  refine ⟨hclose, ?_⟩
  intro fuel j
  have hne : ({ e with count := sizeMod - 1 } : FileCache).count ≠ 0 := by
    show sizeMod - 1 ≠ 0
    norm_num [sizeMod]
  obtain ⟨cs, hcs⟩ := clearFileCache_preserves_live fuel _ j i _ hclose hne
  exact ⟨cs, hcs⟩

/-- Witness for C10: the `/a` entry of `stateA0` (count 0) after one
more close: count `2^32 - 1`, and a full eviction pass leaves it in
place. -/
theorem claim_C10_witness :
    lookupE (closeFileHandler stateA0 1).entries 1 =
      some { file := some [], path := some "/a", parent := some 0, childs := [],
             count := sizeMod - 1 } ∧
    (∃ cs, lookupE (clearFileCache 3 (closeFileHandler stateA0 1).entries 0).1 1 =
      some { file := some [], path := some "/a", parent := some 0, childs := cs,
             count := sizeMod - 1 }) := by
  have h := claim_C10_close_wraps_to_max stateA0 1
    { file := some [], path := some "/a", parent := some 0, childs := [], count := 0 }
    (by decide) rfl
  exact ⟨h.1, h.2 3 0⟩

/-- Counterexample for C5: in `stateABClosedA` the entry `/a` has count
0 while its child `/a/b` is still open (count 1).  Eviction removes
`/a` and detaches the live child from the tree — but the child does NOT
remain reachable *only* through outstanding handles: its path is still
in the index, so a handle-free `open("/a/b")` still finds and returns
it. -/
theorem claim_C5_counterexample :
    (∃ e, lookupE stateABClosedA.entries 1 = some e ∧ e.count = 0 ∧ e.childs = [2]) ∧
    (∃ e, lookupE stateABClosedA.entries 2 = some e ∧ e.count = 1) ∧
    lookupE (evictOp stateABClosedA).entries 1 = none ∧
    (∃ e, lookupE (evictOp stateABClosedA).entries 0 = some e ∧ e.childs = []) ∧
    findFileCache (evictOp stateABClosedA) "/a/b" = some 2 ∧
    (openFileHandler resolveAB (evictOp stateABClosedA) (some (bytesOf "/a/b"))).2 =
      OpenResult.success 2 := by
  refine ⟨⟨{ file := some [], path := some "/a", parent := some 0, childs := [2], count := 0 },
      by decide, by decide, by decide⟩,
    ⟨{ file := some [], path := some "/a/b", parent := some 1, childs := [], count := 1 },
      by decide, by decide⟩,
    by decide,
    ⟨{ file := none, path := none, parent := none, childs := [], count := 1 },
      by decide, by decide⟩,
    by decide, by decide⟩

/-- C5 as amended: after unconditionally recursing into all children,
eviction removes an entry exactly when the entry's own count is 0 —
independently of whether live children remain — and in that case the
live children are detached from the tree but remain in the arena AND in
the path index (so they stay reachable through outstanding handles and
through path lookup; the index is never updated by eviction). -/
theorem claim_C5_postorder_own_count :
    (∀ (fuel : Nat) (es : EntriesT) (i : EntryId) (e : FileCache), lookupE es i = some e →
      ((clearFileCache (fuel + 1) es i).2 = true ↔
        ∃ e1, lookupE (clearChildList (clearFileCache fuel) es e.childs).1 i = some e1 ∧
          e1.count = 0)) ∧
    lookupE (evictOp stateABClosedA).entries 1 = none ∧
    (∃ e, lookupE (evictOp stateABClosedA).entries 2 = some e ∧ e.count = 1 ∧
      e.parent = some 1) ∧
    idxLookup (evictOp stateABClosedA).cacheIdx "/a/b" = some 2 := by
  refine ⟨?_, by decide,
    ⟨{ file := some [], path := some "/a/b", parent := some 1, childs := [], count := 1 },
      by decide, by decide, by decide⟩, by decide⟩
  intro fuel es i e h
  simp only [clearFileCache, h]
  cases h2 : lookupE (clearChildList (clearFileCache fuel) es e.childs).1 i with
  | none => simp [h2]
  | some e1 =>
    by_cases hz : e1.count = 0
    · simp [h2, hz]
    · simp [h2, hz]

/-- Witness for C5: the removal test of the amended claim instantiated
on the `/a` entry of the counterexample state. -/
theorem claim_C5_witness :
    ((clearFileCache 2 stateABClosedA.entries 1).2 = true ↔
      ∃ e1, lookupE (clearChildList (clearFileCache 1) stateABClosedA.entries [2]).1 1 =
        some e1 ∧ e1.count = 0) ∧
    lookupE (evictOp stateABClosedA).entries 1 = none := by
  have h := claim_C5_postorder_own_count
  exact ⟨h.1 1 stateABClosedA.entries 1
    { file := some [], path := some "/a", parent := some 0, childs := [2], count := 0 }
    (by decide), h.2.1⟩

/-- C4: for a path `P` that the backing store resolves (and that fits
the path bound, NUL-free), opening `P` twice from the fresh server
returns the same entry identity both times (id 1), leaves that entry's
count at exactly 2, and consults the backing store exactly once — the
second open is served from the cache index. -/
theorem claim_C4_open_twice_cached (resolve : String → Option (List Nat)) (P : String)
    (d : List Nat) (hres : resolve P = some d) (hlen : P.length < PATHLEN)
    (hnul : Char.ofNat 0 ∉ P.data) :
    (openFileHandler resolve initState (some (P.data ++ [Char.ofNat 0]))).2 =
      OpenResult.success 1 ∧
    (openFileHandler resolve (openFileHandler resolve initState
        (some (P.data ++ [Char.ofNat 0]))).1 (some (P.data ++ [Char.ofNat 0]))).2 =
      OpenResult.success 1 ∧
    (∃ e, lookupE (openFileHandler resolve (openFileHandler resolve initState
        (some (P.data ++ [Char.ofNat 0]))).1 (some (P.data ++ [Char.ofNat 0]))).1.entries 1 =
      some e ∧ e.count = 2) ∧
    (openFileHandler resolve (openFileHandler resolve initState
        (some (P.data ++ [Char.ofNat 0]))).1 (some (P.data ++ [Char.ofNat 0]))).1.lookupCount = 1 := by
  have hparse : parsePath ((P.data ++ [Char.ofNat 0]).take PATHLEN) = P :=
    parsePath_short hlen hnul
  have hfull : String.mk (P.data.take (PATHLEN - 1)) = P := full_path_short hlen
  have key1 : openFileHandler resolve initState (some (P.data ++ [Char.ofNat 0])) =
      ({ entries := [(0, { file := none, path := none, parent := none, childs := [1], count := 1 }),
                     (1, { file := some d, path := some P, parent := some 0, childs := [], count := 1 })],
         cacheIdx := [(P, 1)], rootId := 0, nextId := 2, lookupCount := 1 },
       OpenResult.success 1) := by
    unfold openFileHandler
    dsimp only
    rw [hparse]
    rw [show findFileCache initState P = none from rfl]
    unfold lookupFile
    dsimp only
    rw [hres]
    dsimp only
    unfold insertFileCache
    dsimp only
    rw [hfull]
    rw [insertParentId_empty_idx _ rfl rfl]
    unfold incCount
    dsimp only
    simp only [initState, lookupE, updateE, idxInsert]
    norm_num [sizeMod]
  have key2 : openFileHandler resolve
      ({ entries := [(0, { file := none, path := none, parent := none, childs := [1], count := 1 }),
                     (1, { file := some d, path := some P, parent := some 0, childs := [], count := 1 })],
         cacheIdx := [(P, 1)], rootId := 0, nextId := 2, lookupCount := 1 } : FSState)
      (some (P.data ++ [Char.ofNat 0])) =
      ({ entries := [(0, { file := none, path := none, parent := none, childs := [1], count := 1 }),
                     (1, { file := some d, path := some P, parent := some 0, childs := [], count := 2 })],
         cacheIdx := [(P, 1)], rootId := 0, nextId := 2, lookupCount := 1 },
       OpenResult.success 1) := by
    unfold openFileHandler
    dsimp only
    rw [hparse]
    rw [show findFileCache
        ({ entries := [(0, { file := none, path := none, parent := none, childs := [1], count := 1 }),
                       (1, { file := some d, path := some P, parent := some 0, childs := [], count := 1 })],
           cacheIdx := [(P, 1)], rootId := 0, nextId := 2, lookupCount := 1 } : FSState) P
        = some 1 from by simp [findFileCache, cacheHit, idxLookup]]
    unfold incCount
    dsimp only
    simp only [lookupE, updateE]
    norm_num [sizeMod]
  rw [key1]
  dsimp only
  rw [key2]
  refine ⟨rfl, rfl,
    ⟨{ file := some d, path := some P, parent := some 0, childs := [], count := 2 }, ?_, rfl⟩,
    rfl⟩
  simp [lookupE]

/-- Witness for C4: the double open of `/a` against the concrete
backing store. -/
theorem claim_C4_witness :
    (openFileHandler resolveAB initState (some ("/a".data ++ [Char.ofNat 0]))).2 =
      OpenResult.success 1 ∧
    (openFileHandler resolveAB (openFileHandler resolveAB initState
        (some ("/a".data ++ [Char.ofNat 0]))).1 (some ("/a".data ++ [Char.ofNat 0]))).2 =
      OpenResult.success 1 ∧
    (∃ e, lookupE (openFileHandler resolveAB (openFileHandler resolveAB initState
        (some ("/a".data ++ [Char.ofNat 0]))).1 (some ("/a".data ++ [Char.ofNat 0]))).1.entries 1 =
      some e ∧ e.count = 2) ∧
    (openFileHandler resolveAB (openFileHandler resolveAB initState
        (some ("/a".data ++ [Char.ofNat 0]))).1
      (some ("/a".data ++ [Char.ofNat 0]))).1.lookupCount = 1 :=
  claim_C4_open_twice_cached resolveAB "/a" [] (by decide) (by decide) (by decide)

/-- Witness for C3: an open/read/close/evict session on `/a`; the root
survives with count 1. -/
theorem claim_C3_witness :
    (runOps resolveAB [FSOp.openF (some (bytesOf "/a")), FSOp.readF 1 2000 0,
        FSOp.closeF 1, FSOp.evictF] initState).rootId = 0 ∧
    ∃ e, lookupE (runOps resolveAB [FSOp.openF (some (bytesOf "/a")), FSOp.readF 1 2000 0,
        FSOp.closeF 1, FSOp.evictF] initState).entries 0 = some e ∧
      e.count = 1 ∧ e.parent = none ∧ e.path = none ∧ e.file = none := by
  have h := claim_C3_root_never_evicted resolveAB
    [FSOp.openF (some (bytesOf "/a")), FSOp.readF 1 2000 0, FSOp.closeF 1, FSOp.evictF]
    (by
      intro i hi
      simp only [List.mem_cons, List.not_mem_nil, or_false] at hi
      rcases hi with h | h | h | h <;> simp_all)
  exact h.2.2

end FreeNOS
